import Mathlib

/-!
Verification of the VRL stdlib leaf functions (`bool`, `snakecase`, `encode_lz4`,
`is_integer`, `keys`, `parse_regex_all`, `values`) against their natural-language
specification.  The leaf functions are embedded from the visible source files under
`src/stdlib/`; the framework types they depend on (`Value`, `Kind`, `Collection`,
`TypeDef`, the `ArgumentList` binding helpers and the `util`/`casing` helpers) are
not part of the visible source and are modelled from the specification, as noted
in their doc comments.
-/

set_option maxHeartbeats 1000000

namespace Vrl

/-- Modelled from the spec: the compiled-regex payload of `Value::Regex`.  The regex
engine itself is an external collaborator (spec section 6), so a pattern is modelled by
its list of capture-group names (index 0 is the unnamed whole match, as in the
`regex` crate) together with an abstract matching function `findAll` returning, for
each match, the text captured by each group (`none` for a group that did not
participate). -/
structure RegexP where
  captureNames : List (Option String)
  findAll : String → List (List (Option String))

/-- Modelled from the spec (section 3): the dynamic runtime `Value` tagged union.
Bytes are modelled as `String`, the float payload is abstracted to its bit pattern,
and an object is an insertion-ordered association list of fields (the section 8
scenario fixes key iteration order as insertion order). -/
inductive Value where
  | boolean (b : Bool)
  | integer (i : Int)
  | float (bits : Nat)
  | bytes (s : String)
  | array (xs : List Value)
  | object (fields : List (String × Value))
  | regex (r : RegexP)
  | timestamp (t : Int)
  | null

/-- Modelled from the spec: the display name of a value's kind, as used in error
messages such as "expected boolean, got integer". -/
def Value.kindStr : Value → String
  | .boolean _ => "boolean"
  | .integer _ => "integer"
  | .float _ => "float"
  | .bytes _ => "string"
  | .array _ => "array"
  | .object _ => "object"
  | .regex _ => "regex"
  | .timestamp _ => "timestamp"
  | .null => "null"

/-- Run-time evaluation result: a typed error value or a `Value` (spec section 7). -/
abbrev Resolved := Except String Value

/-- Modelled from the spec: typed extraction helper `Value::try_object`, failing with
a typed error if the dynamic variant is not an object. -/
def Value.try_object : Value → Except String (List (String × Value))
  | .object fields => .ok fields
  | v => .error ("expected object, got " ++ v.kindStr)

/-- Modelled from the spec: typed extraction helper `Value::try_bytes` (bytes are
modelled as `String`). -/
def Value.try_bytes : Value → Except String String
  | .bytes s => .ok s
  | v => .error ("expected string, got " ++ v.kindStr)

/-- Modelled from the spec: `Value::try_bytes_utf8_lossy`, succeeding exactly on the
bytes variant (lossy UTF-8 decoding is the identity in this model). -/
def Value.try_bytes_utf8_lossy : Value → Except String String
  | .bytes s => .ok s
  | v => .error ("expected string, got " ++ v.kindStr)

/-- Modelled from the spec: typed extraction helper `Value::try_boolean`. -/
def Value.try_boolean : Value → Except String Bool
  | .boolean b => .ok b
  | v => .error ("expected boolean, got " ++ v.kindStr)

/-- Modelled from the spec: `Value::as_regex`, returning the regex payload if the
dynamic variant is a regex. -/
def Value.as_regex : Value → Option RegexP
  | .regex r => some r
  | _ => none

/-- Modelled from the spec: `Value::is_integer`. -/
def Value.is_integerB : Value → Bool
  | .integer _ => true
  | _ => false

mutual
/-- Modelled from the spec (section 3): `Kind` is a bitset over the `Value` variants
(boolean, integer, float, bytes, regex, timestamp, null in that field order), with an
optional nested `Collection` when the object/array bits are set (`some` means the bit
is set). -/
inductive Kind where
  | mk : Bool → Bool → Bool → Bool → Bool → Bool → Bool →
         Option Collection → Option Collection → Kind

/-- Modelled from the spec (section 3): the structural payload of an object/array
Kind — a mapping from known keys to `Kind` plus one "unknown" fallback `Kind`
applied to anything not explicitly listed.  Known keys are kept sorted, mirroring
the `BTreeMap` used by the implementation. -/
inductive Collection where
  | mk : List (String × Kind) → Kind → Collection
end

def Kind.booleanB : Kind → Bool
  | .mk b _ _ _ _ _ _ _ _ => b

def Kind.integerB : Kind → Bool
  | .mk _ i _ _ _ _ _ _ _ => i

def Kind.floatB : Kind → Bool
  | .mk _ _ f _ _ _ _ _ _ => f

def Kind.bytesB : Kind → Bool
  | .mk _ _ _ y _ _ _ _ _ => y

def Kind.regexB : Kind → Bool
  | .mk _ _ _ _ r _ _ _ _ => r

def Kind.timestampB : Kind → Bool
  | .mk _ _ _ _ _ t _ _ _ => t

def Kind.nullB : Kind → Bool
  | .mk _ _ _ _ _ _ n _ _ => n

/-- Modelled from the spec: `Kind::as_object`, returning the object collection when
the object bit is set and nothing otherwise (section 4.1: "fails/returns none if the
bit is absent"). -/
def Kind.as_object : Kind → Option Collection
  | .mk _ _ _ _ _ _ _ o _ => o

def Kind.as_array : Kind → Option Collection
  | .mk _ _ _ _ _ _ _ _ a => a

def Collection.known : Collection → List (String × Kind)
  | .mk kn _ => kn

def Collection.unknown : Collection → Kind
  | .mk _ u => u

/-- Modelled from the spec: the empty Kind (no variant admitted). -/
def Kind.never : Kind := .mk false false false false false false false none none

/-- Modelled from the spec: `Kind::boolean()`. -/
def Kind.boolean : Kind := .mk true false false false false false false none none

/-- Modelled from the spec: `Kind::integer()`. -/
def Kind.integer : Kind := .mk false true false false false false false none none

/-- Modelled from the spec: `Kind::bytes()`. -/
def Kind.bytes : Kind := .mk false false false true false false false none none

/-- Modelled from the spec: `Kind::null()`. -/
def Kind.null : Kind := .mk false false false false false false true none none

/-- Modelled from the spec: `Kind::object(collection)`. -/
def Kind.object (c : Collection) : Kind :=
  .mk false false false false false false false (some c) none

/-- Modelled from the spec: `Kind::array(collection)`. -/
def Kind.array (c : Collection) : Kind :=
  .mk false false false false false false false none (some c)

/-- Modelled from the spec (section 4.1): `Kind::or_null` adds the null bit. -/
def Kind.or_null : Kind → Kind
  | .mk b i f y r t _ o a => .mk b i f y r t true o a

/-- Modelled from the spec (section 4.2): `Kind::is_boolean`, true iff the Kind is
exactly boolean ("is_exactly" in the assert-like fallibility policy). -/
def Kind.is_boolean : Kind → Bool
  | .mk b i f y r t n o a =>
      b && !i && !f && !y && !r && !t && !n && o.isNone && a.isNone

/-- Modelled from the spec: the bytes-or-null Kind appearing in regex capture
typing. -/
def Kind.bytesOrNull : Kind := .mk false false false true false false true none none

mutual
/-- Modelled from the spec (sections 3 and 4.1): Kind union.  The variant bits are
or-ed; object/array Collections present on both sides merge field-wise. -/
def kindUnion : Kind → Kind → Kind
  | .mk b1 i1 f1 y1 r1 t1 n1 o1 a1, .mk b2 i2 f2 y2 r2 t2 n2 o2 a2 =>
      .mk (b1 || b2) (i1 || i2) (f1 || f2) (y1 || y2) (r1 || r2) (t1 || t2)
        (n1 || n2) (collOptUnion o1 o2) (collOptUnion a1 a2)
termination_by a b => sizeOf a + sizeOf b

def collOptUnion : Option Collection → Option Collection → Option Collection
  | none, c2 => c2
  | some c1, none => some c1
  | some c1, some c2 => some (collUnion c1 c2)
termination_by a b => sizeOf a + sizeOf b

/-- Modelled from the spec (section 4.1): union of two object/array Collections —
known fields present in both use the union of their Kinds, fields present in only
one side are widened with null, and the unknown fallback is widened to cover both
sides. -/
def collUnion : Collection → Collection → Collection
  | .mk kn1 u1, .mk kn2 u2 => .mk (mergeKnown kn1 kn2) (kindUnion u1 u2)
termination_by a b => sizeOf a + sizeOf b

def mergeKnown : List (String × Kind) → List (String × Kind) → List (String × Kind)
  | [], kn2 => kn2.map (fun p => (p.1, p.2.or_null))
  | p :: t1, [] => (p.1, p.2.or_null) :: mergeKnown t1 []
  | (s1, k1) :: t1, (s2, k2) :: t2 =>
      if s1 < s2 then (s1, k1.or_null) :: mergeKnown t1 ((s2, k2) :: t2)
      else if s2 < s1 then (s2, k2.or_null) :: mergeKnown ((s1, k1) :: t1) t2
      else (s1, kindUnion k1 k2) :: mergeKnown t1 t2
termination_by a b => sizeOf a + sizeOf b
end

/-- Modelled from the spec (section 3): `Collection::reduced_kind` folds the known
field Kinds and the unknown fallback into one overall Kind via union. -/
def Collection.reduced_kind (c : Collection) : Kind :=
  c.known.foldl (fun acc p => kindUnion acc p.2) c.unknown

/-- Modelled from the spec (section 3): `Collection::from_unknown`. -/
def Collection.from_unknown (k : Kind) : Collection := .mk [] k

/-- Modelled from the spec: `Collection::empty()` — no known fields and an unknown
fallback admitting nothing. -/
def Collection.empty : Collection := .mk [] Kind.never

/-- Modelled from the spec: `Collection::with_unknown`. -/
def Collection.with_unknown (c : Collection) (k : Kind) : Collection :=
  .mk c.known k

/-- Modelled from the spec (section 3): a `TypeDef` pairs a Kind with a
statically-computed fallibility flag. -/
structure TypeDef where
  kind : Kind
  fallible : Bool

/-- Modelled from the spec: `TypeDef::boolean()` (infallible by default). -/
def TypeDef.booleanTD : TypeDef := ⟨Kind.boolean, false⟩

/-- Modelled from the spec: `TypeDef::bytes()` (infallible by default). -/
def TypeDef.bytesTD : TypeDef := ⟨Kind.bytes, false⟩

/-- Modelled from the spec: `TypeDef::array(collection)` (infallible by default). -/
def TypeDef.arrayTD (c : Collection) : TypeDef := ⟨Kind.array c, false⟩

/-- Modelled from the spec (section 3): `maybe_fallible(cond)` sets
`fallible := fallible || cond`. -/
def TypeDef.maybe_fallible (td : TypeDef) (cond : Bool) : TypeDef :=
  ⟨td.kind, td.fallible || cond⟩

/-- Modelled from the spec: `TypeDef::fallible()` marks the TypeDef fallible. -/
def TypeDef.asFallible (td : TypeDef) : TypeDef := ⟨td.kind, true⟩

/-- Modelled from the spec: `TypeDef::infallible()`. -/
def TypeDef.asInfallible (td : TypeDef) : TypeDef := ⟨td.kind, false⟩

/-- Modelled from the spec (section 3): a dynamic value matches a Kind when the bit
for its variant is set (for objects/arrays: when the corresponding collection is
present). -/
def matchesKind : Value → Kind → Bool
  | .boolean _, k => k.booleanB
  | .integer _, k => k.integerB
  | .float _, k => k.floatB
  | .bytes _, k => k.bytesB
  | .regex _, k => k.regexB
  | .timestamp _, k => k.timestampB
  | .null, k => k.nullB
  | .object _, k => k.as_object.isSome
  | .array _, k => k.as_array.isSome

/-- Modelled from the spec (section 6): `map_resolve_with_default` resolves an
optional argument expression, substituting the declared default value when the
argument is absent.  An argument expression is embedded by its resolution result
(the Context is threaded by the caller and never mutated in the visible source). -/
def map_resolve_with_default (arg : Option Resolved) (d : Value) : Resolved :=
  match arg with
  | none => .ok d
  | some r => r

/-! ### bool (src/stdlib/boolean.rs) -/

/-- Embedded from `boolean.rs`: the leaf helper `boolean`, returning its input when
it is a Boolean and a typed error naming the actual kind otherwise. -/
def boolean (value : Value) : Resolved :=
  match value with
  | .boolean b => .ok (.boolean b)
  | v => .error ("expected boolean, got " ++ v.kindStr)

/-- Embedded from `boolean.rs`: `BooleanFn::resolve`, given the resolution result of
the `value` argument expression. -/
def booleanFnResolve (value : Resolved) : Resolved := do
  boolean (← value)

/-- Embedded from `boolean.rs`: `BooleanFn::type_def`, given the argument
expression's predicted Kind. -/
def booleanFnTypeDef (argKind : Kind) : TypeDef :=
  TypeDef.booleanTD.maybe_fallible (!argKind.is_boolean)

/-! ### keys (src/stdlib/keys.rs) -/

/-- Embedded from `keys.rs`: the leaf helper `keys`. -/
def keys (value : Value) : Resolved := do
  let object ← value.try_object
  .ok (.array (object.map (fun p => Value.bytes p.1)))

/-- Embedded from `keys.rs`: `KeysFn::resolve`. -/
def keysFnResolve (value : Resolved) : Resolved := do
  keys (← value)

/-- Embedded from `keys.rs`: `KeysFn::type_def` — an infallible array of bytes. -/
def keysFnTypeDef : TypeDef :=
  (TypeDef.arrayTD (Collection.empty.with_unknown Kind.bytes)).asInfallible

/-! ### values (src/stdlib/values.rs) -/

/-- Embedded from `values.rs`: the leaf helper `values`. -/
def values (value : Value) : Resolved := do
  let object ← value.try_object
  .ok (.array (object.map Prod.snd))

/-- Embedded from `values.rs`: `ValuesFn::resolve`. -/
def valuesFnResolve (value : Resolved) : Resolved := do
  values (← value)

/-- Embedded from `values.rs`: `ValuesFn::type_def`.  The source unwraps
`as_object()` on the argument's Kind; the `unwrap` panic on a Kind without the
object bit is modelled as `none`. -/
def valuesFnTypeDef (argTypeDef : TypeDef) : Option TypeDef :=
  (argTypeDef.kind.as_object).map fun c =>
    (TypeDef.arrayTD (Collection.empty.with_unknown c.reduced_kind)).asInfallible

/-! ### is_integer (src/stdlib/is_integer.rs) -/

/-- Embedded from `is_integer.rs`: `IsIntegerFn::resolve`. -/
def isIntegerFnResolve (value : Resolved) : Resolved :=
  value.map (fun v => .boolean v.is_integerB)

/-- Embedded from `is_integer.rs`: `IsIntegerFn::type_def`. -/
def isIntegerFnTypeDef : TypeDef := TypeDef.booleanTD.asInfallible

/-! ### snakecase (src/stdlib/casing/snakecase.rs) -/

/-- Modelled from the spec: `convert_case::Case`, an opaque case identifier from the
external casing crate (section 6). -/
abbrev Case := String

/-- Modelled from the spec: `convert_case::Boundary`, an opaque case-boundary
identifier from the external casing crate. -/
abbrev Boundary := String

/-- Modelled from the spec: `casing::convert_case` is not in the visible source.
Per section 4.3 it returns a typed error (never a panic) when its input value is
not a byte string; the casing algorithm itself is external and abstracted by
`alg`. -/
def convert_case (alg : Case → Option Case → String → String) (value : Value)
    (tgt : Case) (original : Option Case) : Resolved :=
  match value with
  | .bytes s => .ok (.bytes (alg tgt original s))
  | v => .error ("expected string, got " ++ v.kindStr)

/-- Modelled from the spec: `casing::convert_case_with_excluded_boundaries` is not
in the visible source.  It consumes an already-extracted string, so it cannot fail;
the algorithm is external and abstracted by `alg2`. -/
def convert_case_with_excluded_boundaries
    (alg2 : Case → Option Case → List Boundary → String → String)
    (s : String) (tgt : Case) (original : Option Case) (bs : List Boundary) : Value :=
  .bytes (alg2 tgt original bs s)

/-- Embedded from `snakecase.rs`: `SnakecaseFn::resolve`.  The source computes
`value.try_bytes_utf8_lossy().expect("can't convert to string")` before branching:
the `expect` is a process abort on a non-bytes value, modelled as `none`. -/
def snakecaseFnResolve (alg : Case → Option Case → String → String)
    (alg2 : Case → Option Case → List Boundary → String → String)
    (value : Resolved) (original_case : Option Case)
    (excluded_boundaries : Option (List Boundary)) : Option Resolved :=
  match value with
  | .error e => some (.error e)
  | .ok v =>
    match v.try_bytes_utf8_lossy with
    | .error _ => none
    | .ok string_value =>
      match excluded_boundaries with
      | some bs =>
          if bs.isEmpty then
            some (convert_case alg v "snake" original_case)
          else
            some (.ok (convert_case_with_excluded_boundaries alg2 string_value
              "snake" original_case bs))
      | none => some (convert_case alg v "snake" original_case)

/-- Embedded from `snakecase.rs`: `SnakecaseFn::type_def` — infallible bytes. -/
def snakecaseFnTypeDef : TypeDef := TypeDef.bytesTD.asInfallible

/-! ### encode_lz4 (src/stdlib/encode_lz4.rs) -/

/-- Embedded from `encode_lz4.rs`: the leaf helper `encode_lz4`.  The lz4 block
algorithms `compress` and `compress_prepend_size` are external collaborators
(spec section 6) and are abstracted as function parameters. -/
def encode_lz4 (compress compress_prepend_size : String → String)
    (value : Value) (prepend_size : Bool) : Resolved := do
  let s ← value.try_bytes
  if prepend_size then
    .ok (.bytes (compress_prepend_size s))
  else
    .ok (.bytes (compress s))

/-- Embedded from `encode_lz4.rs`: `EncodeLz4Fn::resolve`, with `prepend_size`
defaulting to `true` via `map_resolve_with_default`. -/
def encodeLz4FnResolve (compress compress_prepend_size : String → String)
    (value : Resolved) (prepend_size : Option Resolved) : Resolved := do
  let v ← value
  let p ← (← map_resolve_with_default prepend_size (.boolean true)).try_boolean
  encode_lz4 compress compress_prepend_size v p

/-- Embedded from `encode_lz4.rs`: `EncodeLz4Fn::type_def` — always fallible. -/
def encodeLz4FnTypeDef : TypeDef := TypeDef.bytesTD.asFallible

/-! ### parse_regex_all (src/stdlib/parse_regex_all.rs) -/

/-- Captured group text as a Value: the matched bytes, or null when the group did
not participate in the match. -/
def optStrToValue : Option String → Value
  | some s => .bytes s
  | none => .null

/-- Modelled from the spec: `util::capture_regex_to_map` is not in the visible
source.  Per the examples in `parse_regex_all.rs`, it maps each named capture group
to its captured text and, when `numeric_groups` is set, additionally maps each
group index (as a string, index 0 being the whole match) to its captured text. -/
def capture_regex_to_map (names : List (Option String))
    (capture : List (Option String)) (numeric_groups : Bool) :
    List (String × Value) :=
  let named := names.enum.filterMap fun p =>
    p.2.map fun n => (n, optStrToValue ((capture.get? p.1).getD none))
  let numeric := capture.enum.map fun p => (toString p.1, optStrToValue p.2)
  if numeric_groups then named ++ numeric else named

/-- Modelled from the spec: `util::regex_kind` is not in the visible source; its
output is pinned by the `tdef` expectations of the tests in `parse_regex_all.rs`:
one known field per group index (as a string) with Kind bytes-or-null, plus one
known field per named group with Kind bytes, over an unknown fallback admitting
nothing. -/
def regex_kind (r : RegexP) : Collection :=
  Collection.mk
    ((List.range r.captureNames.length).map (fun i => (toString i, Kind.bytesOrNull))
      ++ (r.captureNames.filterMap id).map (fun n => (n, Kind.bytes)))
    Kind.never

/-- Embedded from `parse_regex_all.rs`: the leaf helper `parse_regex_all`, mapping
every match of the pattern in the input to a capture map. -/
def parse_regex_all (value : Value) (numeric_groups : Bool) (pattern : RegexP) :
    Resolved := do
  let s ← value.try_bytes_utf8_lossy
  .ok (.array ((pattern.findAll s).map fun capture =>
    .object (capture_regex_to_map pattern.captureNames capture numeric_groups)))

/-- Embedded from `parse_regex_all.rs`: `ParseRegexAllFn::resolve`.  The source
resolves `value`, then `numeric_groups` (defaulting to false), then `pattern`,
propagating the first failure. -/
def parseRegexAllFnResolve (value pattern : Resolved)
    (numeric_groups : Option Resolved) : Resolved := do
  let v ← value
  let ng ← map_resolve_with_default numeric_groups (.boolean false)
  let p ← pattern
  match p.as_regex with
  | none => .error "failed to resolve regex"
  | some r => do
      parse_regex_all v (← ng.try_boolean) r

/-- Embedded from `parse_regex_all.rs`: the same control flow as
`parseRegexAllFnResolve`, additionally recording the names of the argument
sub-expressions that are resolved, in resolution order. -/
def parseRegexAllFnResolveTrace (value pattern : Resolved)
    (numeric_groups : Option Resolved) : List String × Resolved :=
  match value with
  | .error e => (["value"], .error e)
  | .ok v =>
    let ngTrace := match numeric_groups with
      | none => []
      | some _ => ["numeric_groups"]
    match map_resolve_with_default numeric_groups (.boolean false) with
    | .error e => ("value" :: ngTrace, .error e)
    | .ok ng =>
      let trace := "value" :: ngTrace ++ ["pattern"]
      match pattern with
      | .error e => (trace, .error e)
      | .ok p =>
        match p.as_regex with
        | none => (trace, .error "failed to resolve regex")
        | some r =>
          match ng.try_boolean with
          | .error e => (trace, .error e)
          | .ok b => (trace, parse_regex_all v b r)

/-- Embedded from `parse_regex_all.rs`: `ParseRegexAllFn::type_def`.  The pattern
argument is embedded by its compile-time constant resolution
(`resolve_constant`). -/
def parseRegexAllFnTypeDef (patternConstant : Option Value) : TypeDef :=
  match patternConstant with
  | some v =>
    match v.as_regex with
    | some r =>
        (TypeDef.arrayTD (Collection.from_unknown
          (Kind.object (regex_kind r)).or_null)).asFallible
    | none =>
        (TypeDef.arrayTD (Collection.from_unknown
          (Kind.object (Collection.from_unknown
            (kindUnion Kind.bytes Kind.null))).or_null)).asFallible
  | none =>
      (TypeDef.arrayTD (Collection.from_unknown
        (Kind.object (Collection.from_unknown
          (kindUnion Kind.bytes Kind.null))).or_null)).asFallible

/-! ### Compile-time argument binding (spec sections 4.3 and 6)

The `ArgumentList` binding machinery is not in the visible source; the parts
exercised by `Snakecase::compile` are modelled from the spec below. -/

/-- Modelled from the spec (section 9): a call-site argument expression is embedded
at compile time by its constant-folding result `resolveConstant` (spec:
`try_evaluate_statically`), `none` meaning the expression is not statically
resolvable. -/
structure CExpr where
  resolveConstant : Option Value

/-- Modelled from the spec (section 4.3, step 2): `ArgumentList::optional_enum`.
The bound argument must be statically resolvable to a constant among the declared
variants; otherwise compilation fails with a descriptive diagnostic. -/
def optional_enum (arg : Option CExpr) (variants : List String) :
    Except String (Option Value) :=
  match arg with
  | none => .ok none
  | some e =>
    match e.resolveConstant with
    | none => .error "enum argument must be a static expression"
    | some v =>
      match v with
      | .bytes s =>
          if s ∈ variants then .ok (some (.bytes s))
          else .error ("invalid enum variant: " ++ s)
      | _ => .error "invalid enum variant"

/-- Modelled from the spec: the declared variant set of the shared `original_case`
parameter (`casing::ORIGINAL_CASE` and `casing::variants()` are not in the visible
source); the examples and tests in `snakecase.rs` exercise "camelCase" and
"kebab-case". -/
def caseVariants : List String :=
  ["camelCase", "kebab-case", "snake_case", "PascalCase", "lowercase", "UPPERCASE"]

/-- Modelled from the spec: `casing::into_case`, mapping each declared case variant
string to the external crate's `Case` and failing on anything else. -/
def into_case (s : String) : Except String Case :=
  if s ∈ caseVariants then .ok s else .error ("invalid case: " ++ s)

/-- Embedded from `snakecase.rs`: the declared variant set of the
`excluded_boundaries` parameter. -/
def boundaryVariants : List String :=
  ["lower_upper", "upper_lower", "acronym", "lower_digit", "upper_digit",
   "digit_lower", "digit_upper"]

/-- Modelled from the spec: `casing::into_boundary`, mapping each declared boundary
variant string to the external crate's `Boundary` and failing on anything else
(the gate that rejects out-of-set literals in `Snakecase::compile`). -/
def into_boundary (s : String) : Except String Boundary :=
  if s ∈ boundaryVariants then .ok s else .error ("invalid boundary: " ++ s)

/-- Embedded from `snakecase.rs`: the `excluded_boundaries` loop of
`Snakecase::compile` — each element expression must resolve to a constant, whose
bytes are passed to `into_boundary`.  The source's
`.try_bytes_utf8_lossy().expect(...)` on a non-bytes constant is a process abort,
modelled as `none`. -/
def compileBoundaries : List CExpr → Option (Except String (List Boundary))
  | [] => some (.ok [])
  | e :: rest =>
    match e.resolveConstant with
    | none => some (.error "expected static string for excluded_boundaries")
    | some v =>
      match v.try_bytes_utf8_lossy with
      | .error _ => none
      | .ok s =>
        match into_boundary s with
        | .error err => some (.error err)
        | .ok b =>
          match compileBoundaries rest with
          | none => none
          | some (.error err) => some (.error err)
          | some (.ok bs) => some (.ok (b :: bs))

/-- The compiled `SnakecaseFn` node: the bound value expression, the folded
original case and the folded excluded boundaries. -/
structure SnakecaseCompiled where
  value : CExpr
  original_case : Option Case
  excluded_boundaries : Option (List Boundary)

/-- Embedded from `snakecase.rs`: `Snakecase::compile`.  `original_case` goes
through `optional_enum` and `into_case`; `excluded_boundaries` is bound as an
array literal whose elements must be constants accepted by `into_boundary`.
Process aborts (the `expect` calls) are modelled as `none`; compile-time
diagnostics as `some (.error _)`. -/
def snakecaseCompile (value : CExpr) (original_case : Option CExpr)
    (excluded_boundaries : Option (List CExpr)) :
    Option (Except String SnakecaseCompiled) :=
  match optional_enum original_case caseVariants with
  | .error e => some (.error e)
  | .ok ocv =>
    let step2 : Option (Except String (Option Case)) :=
      match ocv with
      | none => some (.ok none)
      | some v =>
        match v.try_bytes_utf8_lossy with
        | .error _ => none
        | .ok s =>
          match into_case s with
          | .error e => some (.error e)
          | .ok c => some (.ok (some c))
    match step2 with
    | none => none
    | some (.error e) => some (.error e)
    | some (.ok oc) =>
      match excluded_boundaries with
      | none => some (.ok ⟨value, oc, none⟩)
      | some elems =>
        match compileBoundaries elems with
        | none => none
        | some (.error e) => some (.error e)
        | some (.ok bs) => some (.ok ⟨value, oc, some bs⟩)

/-! ### Claim-statement helpers -/

/-- The pattern of the `matches` test in `parse_regex_all.rs`: two named groups
`fruit` and `veg` (group 0 is the unnamed whole match); the matching function is
irrelevant to the compile-time prediction. -/
def testRegex : RegexP := ⟨[none, some "fruit", some "veg"], fun _ => []⟩

/-- The known fields of the object element Kind predicted by
`ParseRegexAllFn::type_def` for a given compile-time pattern constant. -/
def predictedKnownFields (patternConstant : Option Value) :
    Option (List (String × Kind)) := do
  let arrColl ← (parseRegexAllFnTypeDef patternConstant).kind.as_array
  let objColl ← arrColl.unknown.as_object
  pure objColl.known

/-- Claim C2 as stated, instantiated at the `testRegex` pattern constant: the
predicted known fields are exactly the pattern's capture-group names, each with
Kind bytes-or-null. -/
def claimC2At : Prop :=
  predictedKnownFields (some (.regex testRegex)) =
    some [("fruit", Kind.bytesOrNull), ("veg", Kind.bytesOrNull)]

/-- Claim C5 as stated, instantiated at concrete argument results where both the
pattern argument and the numeric_groups argument fail: the error returned is the
pattern argument's error. -/
def claimC5At : Prop :=
  parseRegexAllFnResolve (.ok (.bytes "input")) (.error "pattern error")
    (some (.error "numeric_groups error")) = .error "pattern error"

/-! ### Theorems -/

/-- A value matching the bytes Kind is a byte string. -/
theorem matchesKind_bytes (v : Value) (h : matchesKind v Kind.bytes = true) :
    ∃ s, v = .bytes s := by
  cases v <;>
    simp_all [matchesKind, Kind.bytes, Kind.booleanB, Kind.integerB, Kind.floatB,
      Kind.bytesB, Kind.regexB, Kind.timestampB, Kind.nullB, Kind.as_object,
      Kind.as_array]

/-- A value matching an object Kind is an object. -/
theorem matchesKind_object (v : Value) (c : Collection)
    (h : matchesKind v (Kind.object c) = true) : ∃ fs, v = .object fs := by
  cases v <;>
    simp_all [matchesKind, Kind.object, Kind.booleanB, Kind.integerB, Kind.floatB,
      Kind.bytesB, Kind.regexB, Kind.timestampB, Kind.nullB, Kind.as_object,
      Kind.as_array]

/-- C1: soundness of the fallibility flag over every visible leaf.  For bool: an
infallible prediction forces the argument Kind to be exactly boolean, and resolve
then succeeds on every matching value.  snakecase, is_integer, keys and values
predict infallible, and their resolve succeeds on every value matching the
declared parameter Kind (bytes for snakecase, object for keys/values, any for
is_integer).  encode_lz4 and parse_regex_all always predict fallible, so the
implication holds vacuously for them. -/
theorem C1_fallibility_soundness :
    (∀ k : Kind, (booleanFnTypeDef k).fallible = false →
      ∀ v : Value, matchesKind v k = true → boolean v = .ok v)
  ∧ (snakecaseFnTypeDef.fallible = false ∧
      ∀ (alg : Case → Option Case → String → String)
        (algB : Case → Option Case → List Boundary → String → String)
        (v : Value) (oc : Option Case) (eb : Option (List Boundary)),
        matchesKind v Kind.bytes = true →
        ∃ s, snakecaseFnResolve alg algB (.ok v) oc eb = some (.ok (.bytes s)))
  ∧ (isIntegerFnTypeDef.fallible = false ∧
      ∀ v : Value, isIntegerFnResolve (.ok v) = .ok (.boolean v.is_integerB))
  ∧ (keysFnTypeDef.fallible = false ∧
      ∀ (v : Value) (c : Collection), matchesKind v (Kind.object c) = true →
        ∃ xs, keys v = .ok (.array xs))
  ∧ ((∀ td td', valuesFnTypeDef td = some td' → td'.fallible = false) ∧
      ∀ (v : Value) (c : Collection), matchesKind v (Kind.object c) = true →
        ∃ xs, values v = .ok (.array xs))
  ∧ encodeLz4FnTypeDef.fallible = true
  ∧ (∀ pc : Option Value, (parseRegexAllFnTypeDef pc).fallible = true) := by
  refine ⟨?_, ⟨rfl, ?_⟩, ⟨rfl, fun v => rfl⟩, ⟨rfl, ?_⟩, ⟨?_, ?_⟩, rfl, ?_⟩
  · intro k hf v hm
    obtain ⟨b, i, f, y, r, t, n, o, a⟩ := k
    simp [booleanFnTypeDef, TypeDef.maybe_fallible, TypeDef.booleanTD,
      Kind.is_boolean, Option.isNone_iff_eq_none] at hf
    cases v <;>
      simp_all [matchesKind, boolean, Kind.booleanB, Kind.integerB, Kind.floatB,
        Kind.bytesB, Kind.regexB, Kind.timestampB, Kind.nullB, Kind.as_object,
        Kind.as_array]
  · intro alg algB v oc eb hm
    obtain ⟨s, rfl⟩ := matchesKind_bytes v hm
    cases eb with
    | none => exact ⟨alg "snake" oc s, rfl⟩
    | some bs =>
      by_cases hbs : bs.isEmpty
      · refine ⟨alg "snake" oc s, ?_⟩
        simp [snakecaseFnResolve, Value.try_bytes_utf8_lossy, hbs, convert_case]
      · refine ⟨algB "snake" oc bs s, ?_⟩
        simp [snakecaseFnResolve, Value.try_bytes_utf8_lossy, hbs,
          convert_case_with_excluded_boundaries]
  · intro v c hm
    obtain ⟨fs, rfl⟩ := matchesKind_object v c hm
    exact ⟨fs.map (fun p => Value.bytes p.1), by rfl⟩
  · intro td td' h
    cases hobj : td.kind.as_object with
    | none => simp [valuesFnTypeDef, hobj] at h
    | some c =>
      simp [valuesFnTypeDef, hobj, TypeDef.asInfallible, TypeDef.arrayTD] at h
      rw [← h]
  · intro v c hm
    obtain ⟨fs, rfl⟩ := matchesKind_object v c hm
    exact ⟨fs.map Prod.snd, by rfl⟩
  · intro pc
    cases pc with
    | none => rfl
    | some v => cases hv : v.as_regex <;> simp [parseRegexAllFnTypeDef, hv,
        TypeDef.asFallible, TypeDef.arrayTD]

/-- Witness for C1: bool is predicted infallible on an exactly-boolean argument
Kind and resolves Ok on a boolean value; keys resolves Ok on a concrete object. -/
theorem C1_fallibility_soundness_witness :
    boolean (.boolean true) = .ok (.boolean true)
  ∧ ∃ xs, keys (.object [("a", .integer 1)]) = .ok (.array xs) :=
  ⟨C1_fallibility_soundness.1 Kind.boolean rfl (.boolean true) rfl,
   C1_fallibility_soundness.2.2.2.1.2 (.object [("a", .integer 1)])
     (Collection.mk [] Kind.bytes) rfl⟩

/-- Union of the bytes Kind and the null Kind is the bytes-or-null Kind. -/
theorem kindUnion_bytes_null : kindUnion Kind.bytes Kind.null = Kind.bytesOrNull := by
  simp [kindUnion, collOptUnion, Kind.bytes, Kind.null, Kind.bytesOrNull]

/-- C2 (counterexample): at the two-named-group test pattern, the predicted known
fields are not exactly the capture-group names with Kind bytes-or-null: the
prediction also contains one field per numeric group index, and the named-group
fields carry Kind bytes without null. -/
theorem C2_counterexample : ¬ claimC2At := by
  intro h
  have hc : predictedKnownFields (some (.regex testRegex)) =
      some [("fruit", Kind.bytesOrNull), ("veg", Kind.bytesOrNull)] := h
  have ha : predictedKnownFields (some (.regex testRegex)) =
      some [("0", Kind.bytesOrNull), ("1", Kind.bytesOrNull), ("2", Kind.bytesOrNull),
        ("fruit", Kind.bytes), ("veg", Kind.bytes)] := rfl
  have hl := congrArg (fun o => (Option.map List.length o).getD 0) (ha.symm.trans hc)
  simp at hl

/-- C2 (amended): for a compile-time regex constant, type_def predicts a fallible
array of object-or-null whose known fields are one field per group index (as a
string, Kind bytes-or-null) plus one field per named capture group (Kind bytes);
for a non-constant or non-regex pattern it falls back to the generic
object-of-unknown-shape mapping every key to bytes-or-null. -/
theorem C2_regex_typedef_amended :
    (∀ (names : List (Option String)) (find : String → List (List (Option String))),
      parseRegexAllFnTypeDef (some (.regex ⟨names, find⟩)) =
        (TypeDef.arrayTD (Collection.from_unknown
          (Kind.object (Collection.mk
            ((List.range names.length).map (fun i => (toString i, Kind.bytesOrNull))
              ++ (names.filterMap id).map (fun nm => (nm, Kind.bytes)))
            Kind.never)).or_null)).asFallible)
  ∧ (parseRegexAllFnTypeDef none =
      (TypeDef.arrayTD (Collection.from_unknown
        (Kind.object (Collection.from_unknown Kind.bytesOrNull)).or_null)).asFallible)
  ∧ (∀ v : Value, v.as_regex = none →
      parseRegexAllFnTypeDef (some v) =
        (TypeDef.arrayTD (Collection.from_unknown
          (Kind.object (Collection.from_unknown Kind.bytesOrNull)).or_null)).asFallible) := by
  refine ⟨fun names find => rfl, ?_, ?_⟩
  · simp [parseRegexAllFnTypeDef, kindUnion_bytes_null]
  · intro v hv
    simp [parseRegexAllFnTypeDef, hv, kindUnion_bytes_null]

/-- Witness for C2 (amended): a non-regex constant pattern falls back to the
generic shape. -/
theorem C2_regex_typedef_amended_witness :
    parseRegexAllFnTypeDef (some (.bytes "p")) =
      (TypeDef.arrayTD (Collection.from_unknown
        (Kind.object (Collection.from_unknown Kind.bytesOrNull)).or_null)).asFallible :=
  C2_regex_typedef_amended.2.2 (.bytes "p") rfl

/-- C5 (counterexample): with a failing pattern argument and a failing
numeric_groups argument, ParseRegexAllFn::resolve returns the numeric_groups
argument's error, not the pattern argument's error. -/
theorem C5_counterexample : ¬ claimC5At := by
  intro h
  have hc : parseRegexAllFnResolve (.ok (.bytes "input")) (.error "pattern error")
      (some (.error "numeric_groups error")) = .error "pattern error" := h
  have ha : parseRegexAllFnResolve (.ok (.bytes "input")) (.error "pattern error")
      (some (.error "numeric_groups error")) = .error "numeric_groups error" := rfl
  have heq := ha.symm.trans hc
  injection heq with hs
  exact absurd hs (by decide)

/-- C5 (amended): ParseRegexAllFn::resolve evaluates its argument sub-expressions
strictly in the order value, numeric_groups (only when supplied), pattern,
short-circuiting on the first failure, so that no later argument is resolved after
an earlier one fails; in particular when both numeric_groups and pattern would
fail, the numeric_groups error is returned.  Stated via a traced variant of the
same control flow, whose result always agrees with resolve. -/
theorem C5_resolution_order :
    (∀ v p n, (parseRegexAllFnResolveTrace v p n).2 = parseRegexAllFnResolve v p n)
  ∧ (∀ e p n, parseRegexAllFnResolveTrace (.error e) p n = (["value"], .error e))
  ∧ (∀ v e p, parseRegexAllFnResolveTrace (.ok v) p (some (.error e)) =
      (["value", "numeric_groups"], .error e))
  ∧ (∀ v e ngv, parseRegexAllFnResolveTrace (.ok v) (.error e) (some (.ok ngv)) =
      (["value", "numeric_groups", "pattern"], .error e))
  ∧ (∀ v e, parseRegexAllFnResolveTrace (.ok v) (.error e) none =
      (["value", "pattern"], .error e)) := by
  refine ⟨?_, fun e p n => rfl, fun v e p => rfl, fun v e ngv => rfl, fun v e => rfl⟩
  intro v p n
  cases v with
  | error e => rfl
  | ok v =>
    cases n with
    | none =>
      cases p with
      | error e => rfl
      | ok pv =>
        cases hr : pv.as_regex with
        | none =>
          simp [parseRegexAllFnResolve, parseRegexAllFnResolveTrace,
            map_resolve_with_default, hr, Bind.bind, Except.bind]
        | some r =>
          simp [parseRegexAllFnResolve, parseRegexAllFnResolveTrace,
            map_resolve_with_default, hr, Bind.bind, Except.bind, Value.try_boolean]
    | some ngr =>
      cases ngr with
      | error e => rfl
      | ok ngv =>
        cases p with
        | error e => rfl
        | ok pv =>
          cases hr : pv.as_regex with
          | none =>
            simp [parseRegexAllFnResolve, parseRegexAllFnResolveTrace,
              map_resolve_with_default, hr, Bind.bind, Except.bind]
          | some r =>
            cases hb : ngv.try_boolean with
            | error e =>
              simp [parseRegexAllFnResolve, parseRegexAllFnResolveTrace,
                map_resolve_with_default, hr, hb, Bind.bind, Except.bind]
            | ok b =>
              simp [parseRegexAllFnResolve, parseRegexAllFnResolveTrace,
                map_resolve_with_default, hr, hb, Bind.bind, Except.bind]

/-- C6: binding a non-constant expression to an enum-constrained parameter of
snakecase (original_case, or an element of excluded_boundaries) fails at compile
time; binding a constant string literal outside the declared variant set fails at
compile time; binding any declared variant compiles successfully. -/
theorem C6_enum_gate :
    (∀ (val e : CExpr), e.resolveConstant = none →
      ∃ msg, snakecaseCompile val (some e) none = some (.error msg))
  ∧ (∀ (val e : CExpr), e.resolveConstant = none →
      ∃ msg, snakecaseCompile val none (some [e]) = some (.error msg))
  ∧ (∀ (val : CExpr) (s : String), s ∉ caseVariants →
      ∃ msg, snakecaseCompile val (some ⟨some (.bytes s)⟩) none = some (.error msg))
  ∧ (∀ (val : CExpr) (s : String), s ∉ boundaryVariants →
      ∃ msg, snakecaseCompile val none (some [⟨some (.bytes s)⟩]) = some (.error msg))
  ∧ (∀ (val : CExpr) (s : String), s ∈ caseVariants →
      ∃ m, snakecaseCompile val (some ⟨some (.bytes s)⟩) none = some (.ok m))
  ∧ (∀ (val : CExpr) (s : String), s ∈ boundaryVariants →
      ∃ m, snakecaseCompile val none (some [⟨some (.bytes s)⟩]) = some (.ok m)) := by
  refine ⟨?_, ?_, ?_, ?_, ?_, ?_⟩
  · intro val e h
    refine ⟨"enum argument must be a static expression", ?_⟩
    simp [snakecaseCompile, optional_enum, h]
  · intro val e h
    refine ⟨"expected static string for excluded_boundaries", ?_⟩
    simp [snakecaseCompile, optional_enum, compileBoundaries, h]
  · intro val s h
    refine ⟨"invalid enum variant: " ++ s, ?_⟩
    simp [snakecaseCompile, optional_enum, h]
  · intro val s h
    refine ⟨"invalid boundary: " ++ s, ?_⟩
    simp [snakecaseCompile, optional_enum, compileBoundaries,
      Value.try_bytes_utf8_lossy, into_boundary, h]
  · intro val s h
    refine ⟨⟨val, some s, none⟩, ?_⟩
    simp [snakecaseCompile, optional_enum, Value.try_bytes_utf8_lossy, into_case, h]
  · intro val s h
    refine ⟨⟨val, none, some [s]⟩, ?_⟩
    simp [snakecaseCompile, optional_enum, compileBoundaries,
      Value.try_bytes_utf8_lossy, into_boundary, h]

/-- Witness for C6: the declared variant camelCase for original_case compiles, and
a non-constant original_case argument is rejected with a diagnostic. -/
theorem C6_enum_gate_witness :
    (∃ m, snakecaseCompile ⟨none⟩ (some ⟨some (.bytes "camelCase")⟩) none =
      some (.ok m))
  ∧ (∃ msg, snakecaseCompile ⟨none⟩ (some ⟨none⟩) none = some (.error msg)) :=
  ⟨C6_enum_gate.2.2.2.2.1 ⟨none⟩ "camelCase" (by simp [caseVariants]),
   C6_enum_gate.1 ⟨none⟩ ⟨none⟩ rfl⟩

/-- C3: bool(false) compiles with fallible = false and resolves to the Boolean
false; bool(42) resolves to a typed error reporting the actual Kind (integer);
in general the fallibility flag is set exactly when the argument's predicted Kind
is not exactly boolean, and resolve returns the argument unchanged when it is a
Boolean. -/
theorem C3_bool_scenarios :
    booleanFnResolve (.ok (.boolean false)) = .ok (.boolean false)
  ∧ (booleanFnTypeDef Kind.boolean).fallible = false
  ∧ booleanFnResolve (.ok (.integer 42)) = .error "expected boolean, got integer"
  ∧ (∀ k : Kind, (booleanFnTypeDef k).fallible = !k.is_boolean)
  ∧ (∀ b : Bool, boolean (.boolean b) = .ok (.boolean b)) := by
  refine ⟨rfl, rfl, rfl, ?_, fun b => rfl⟩
  intro k
  simp [booleanFnTypeDef, TypeDef.maybe_fallible, TypeDef.booleanTD]

/-- C4: keys on an object resolves to the array of exactly the object's keys in
insertion order; values on the same object resolves to the array of the
corresponding values; and the predicted result Kind of values is an array whose
element Kind is the reduced (union) Kind of the argument object's value Kinds —
illustrated on the object with fields a and b both integer, whose predicted
element Kind is integer. -/
theorem C4_keys_values :
    (∀ fields, keys (.object fields) = .ok (.array (fields.map fun p => Value.bytes p.1)))
  ∧ (∀ fields, values (.object fields) = .ok (.array (fields.map Prod.snd)))
  ∧ (∀ (b i f y r t n : Bool) (a : Option Collection) (c : Collection) (fb : Bool),
      valuesFnTypeDef ⟨.mk b i f y r t n (some c) a, fb⟩ =
        some ((TypeDef.arrayTD (Collection.empty.with_unknown c.reduced_kind)).asInfallible))
  ∧ keys (.object [("a", .integer 1), ("b", .integer 2)]) =
      .ok (.array [.bytes "a", .bytes "b"])
  ∧ values (.object [("a", .integer 1), ("b", .integer 2)]) =
      .ok (.array [.integer 1, .integer 2])
  ∧ valuesFnTypeDef
      ⟨Kind.object (Collection.mk [("a", Kind.integer), ("b", Kind.integer)] Kind.never),
        false⟩
      = some ⟨Kind.array (Collection.mk [] Kind.integer), false⟩ := by
  refine ⟨fun fields => rfl, fun fields => rfl, fun b i f y r t n a c fb => rfl,
    rfl, rfl, ?_⟩
  simp [valuesFnTypeDef, Kind.object, Kind.as_object, Collection.reduced_kind,
    Collection.known, Collection.unknown, kindUnion, collOptUnion, Kind.integer,
    Kind.never, TypeDef.arrayTD, TypeDef.asInfallible, Collection.empty,
    Collection.with_unknown, Kind.array]

/-- C7: for every string input, every numeric_groups flag and every regex pattern,
when the pattern matches nowhere in the input, parse_regex_all resolves to Ok with
an empty array, not a run-time error. -/
theorem C7_no_matches_empty_array :
    ∀ (s : String) (ng : Bool) (r : RegexP), r.findAll s = [] →
      parse_regex_all (.bytes s) ng r = .ok (.array []) := by
  intro s ng r h
  simp [parse_regex_all, Value.try_bytes_utf8_lossy, Bind.bind, Except.bind, h]

/-- Witness for C7 at a concrete regex with no matches on the input "abc". -/
theorem C7_no_matches_empty_array_witness :
    parse_regex_all (.bytes "abc") false ⟨[none], fun _ => []⟩ = .ok (.array []) :=
  C7_no_matches_empty_array "abc" false ⟨[none], fun _ => []⟩ rfl

/-- C8 (code bug): the spec requires run-time failures inside a leaf's resolve to
be returned as typed error values, never process aborts; but SnakecaseFn::resolve
panics (expect on try_bytes_utf8_lossy, modelled as none) whenever its resolved
value argument is not a byte string — here the integer 1, for every casing
algorithm, original case and excluded-boundaries configuration. -/
theorem C8_snakecase_panics_on_non_bytes :
    ∀ (alg : Case → Option Case → String → String)
      (algB : Case → Option Case → List Boundary → String → String)
      (oc : Option Case) (eb : Option (List Boundary)),
      snakecaseFnResolve alg algB (.ok (.integer 1)) oc eb = none := by
  intro alg algB oc eb
  rfl

/-- C9: omitting an optional parameter with a declared default (encode_lz4's
prepend_size defaulting to true, parse_regex_all's numeric_groups defaulting to
false) resolves to exactly the same result as explicitly passing the default
value, for every value argument, pattern argument and external compression
algorithm. -/
theorem C9_default_substitution :
    (∀ (compress cps : String → String) (value : Resolved),
      encodeLz4FnResolve compress cps value none =
        encodeLz4FnResolve compress cps value (some (.ok (.boolean true))))
  ∧ (∀ value pattern : Resolved,
      parseRegexAllFnResolve value pattern none =
        parseRegexAllFnResolve value pattern (some (.ok (.boolean false)))) := by
  exact ⟨fun compress cps value => rfl, fun value pattern => rfl⟩

/-- C10: ValuesFn::type_def unwraps as_object on the argument's Kind, so it panics
(modelled as none) for any argument TypeDef without the object bit; when the
object bit is set it totally returns the infallible array TypeDef over the
collection's reduced Kind. -/
theorem C10_values_typedef_object_gate :
    (∀ td : TypeDef, td.kind.as_object = none → valuesFnTypeDef td = none)
  ∧ (∀ (td : TypeDef) (c : Collection), td.kind.as_object = some c →
      valuesFnTypeDef td =
        some ((TypeDef.arrayTD (Collection.empty.with_unknown c.reduced_kind)).asInfallible)) := by
  constructor
  · intro td h
    simp [valuesFnTypeDef, h]
  · intro td c h
    simp [valuesFnTypeDef, h]

/-- Witness for C10: a bytes-kinded argument makes ValuesFn::type_def panic, and an
object-kinded argument yields the infallible array TypeDef. -/
theorem C10_values_typedef_object_gate_witness :
    valuesFnTypeDef ⟨Kind.bytes, false⟩ = none
  ∧ valuesFnTypeDef ⟨Kind.object (Collection.mk [] Kind.bytes), false⟩ =
      some ((TypeDef.arrayTD (Collection.empty.with_unknown
        (Collection.mk [] Kind.bytes).reduced_kind)).asInfallible) :=
  ⟨C10_values_typedef_object_gate.1 ⟨Kind.bytes, false⟩ rfl,
   C10_values_typedef_object_gate.2 ⟨Kind.object (Collection.mk [] Kind.bytes), false⟩
     (Collection.mk [] Kind.bytes) rfl⟩

end Vrl
